import Mathlib

/-!
Shallow embedding of the MongoSQL parser (`src/mongosql/parser.py`).

The source file is a PLY yacc grammar together with its semantic actions.
The grammar module declares no `precedence` table, so every grammar
ambiguity is resolved by PLY's default conflict resolution: a shift/reduce
conflict is resolved in favour of shifting.  For the productions
`expression : expression OP expression` (all thirteen binary operators) and
`expression : NOT expression` this means that whenever the parser holds a
reducible expression and the lookahead is another operator it shifts, so a
chain `a op1 b op2 c` always groups to the right as `a op1 (b op2 c)`, and
`NOT` consumes the longest expression that follows it — though the action
of `p_expression_not` then wraps `p[1]`, the NOT token's own value, and
discards the parsed operand `p[2]`.  The embedding below realises exactly
that deterministic strategy as a recursive-descent parser over the token
stream; a fuel argument makes the recursion structural.  Every statement-level production of the grammar (SELECT with
its modifier clauses, AGGREGATE with PROJECT clauses, field and sort
sub-grammars, map literals) is translated rule by rule, with the semantic
action of production `p_xyz` kept as a Lean definition of the same name.

The AST node classes (`Symbol`, `Operation`, `Comparison`, `LogicalAnd`,
`LogicalOr`, `LogicalNot`, `FunctionCall`, `Map`, `SelectOperation`,
`AggregateOperation`, `AggregateCmdProject`) are imported by the parser
from `mongosql/support.py`, which is not among the given sources; their
shapes are modelled from the spec (section 3, data model) as one closed
variant `Expr` plus the two operation records.  Python's `dict`
constructor, applied to the sort pair list, is modelled by `pyDict` as an
insertion-ordered association list with last-write-wins values, which is
exactly the behaviour of a Python dictionary built from a pair iterable.

FLOAT literal tokens are omitted from the token alphabet: their payload is
a machine float, which a shallow embedding cannot treat faithfully, and no
property below concerns them.
-/

namespace MongoSQL

/-- Tokens delivered by the external lexer (`mongosql/lexer.py`, an
external collaborator per the spec): one constructor per terminal used in
the grammar of `parser.py`.  `tStr` carries the raw string lexeme, quotes
included, as the lexer hands it to `p_string`.  `tNot` carries the NOT
keyword's raw lexeme (per the spec every token carries its lexeme as its
value), because `p_expression_not` stores that token value — its `p[1]` —
in the node it builds, so the parser observes it; no other keyword's value
is ever read by a semantic action. -/
inductive Tok
  | tInt (n : Int)
  | tSym (s : String)
  | tStr (s : List Char)
  | tTrue
  | tFalse
  | tNull
  | tPlus
  | tMinus
  | tStar
  | tSlash
  | tPercent
  | tLt
  | tLte
  | tGt
  | tGte
  | tDblEqual
  | tNe
  | tAnd
  | tOr
  | tNot (v : List Char)
  | tLParen
  | tRParen
  | tLBrace
  | tRBrace
  | tComma
  | tEqual
  | tSelect
  | tFrom
  | tWhere
  | tLimit
  | tSkip
  | tSort
  | tAggregate
  | tProject
  | tAs
  | tAsc
  | tDesc
  deriving DecidableEq

/-- The five operators of `p_expression_operation` (PLUS, MINUS, STAR,
SLASH, PERCENT). -/
inductive ArithOp
  | add
  | sub
  | mul
  | div
  | mod
  deriving DecidableEq

/-- The six operators of `p_expression_comparison` (LT, LTE, GT, GTE,
DBLEQUAL, NE). -/
inductive CmpOp
  | lt
  | lte
  | gt
  | gte
  | dbleq
  | ne
  deriving DecidableEq

/-- Modelled from the spec: the closed expression variant of section 3,
covering the node classes of `mongosql/support.py` (not among the given
sources) and the raw Python literal values the grammar passes through
unchanged (`p_base_type`).  `operation` is `Operation{first, operator,
second}`, `comparison` is `Comparison`, `mapLit` is `Map` with its ordered,
non-deduplicated entry list. -/
inductive Expr
  | intLit (n : Int)
  | strLit (s : List Char)
  | boolLit (b : Bool)
  | nullLit
  | symbol (s : String)
  | operation (first : Expr) (op : ArithOp) (second : Expr)
  | comparison (first : Expr) (op : CmpOp) (second : Expr)
  | logicalAnd (left : Expr) (right : Expr)
  | logicalOr (left : Expr) (right : Expr)
  | logicalNot (operand : Expr)
  | functionCall (name : String) (args : List Expr)
  | mapLit (entries : List (String × Expr))

/-- The `named_expression` namedtuple of `parser.py`: a
`(name, expression)` pair. -/
structure NamedExpression where
  name : String
  expression : Expr

/-- Source `p_string`: the semantic action for `string : STRING`.  The Python code
asserts `p[1][0] == p[1][-1]` and `p[1][0] in '\x27"'` and returns
`p[1][1:-1]`; a failed assertion (or indexing an empty lexeme) aborts the
parse, which the embedding renders as `none`.  No escape processing is
performed (the source marks this `todo`). -/
def p_string (s : List Char) : Option (List Char) :=
  match s.head?, s.getLast? with
  | some c0, some cn =>
      if c0 = cn ∧ (c0 = '\'' ∨ c0 = '"') then some ((s.drop 1).dropLast)
      else none
  | _, _ => none

/-- One step of Python `dict` construction from a pair iterable: if the key
is already present its value is overwritten in place (insertion position
kept), otherwise the pair is appended.  A dictionary never holds a key
twice, so replacing the first occurrence is exact. -/
def pyDictInsert : List (String × Int) → String → Int → List (String × Int)
  | [], k, v => [(k, v)]
  | p :: tl, k, v =>
      if p.1 = k then (k, v) :: tl else p :: pyDictInsert tl k v

/-- Modelled from the spec (and Python semantics): `dict(pairs)` as used by
`p_operation_select_sort`, an insertion-ordered association list where a
repeated key keeps its first position but takes its last value. -/
def pyDict (ps : List (String × Int)) : List (String × Int) :=
  ps.foldl (fun d p => pyDictInsert d p.1 p.2) []

/-- Lookup of the first entry for a key in an association list (for a
`pyDict`-built list, the only entry for that key). -/
def pyDictGet : List (String × Int) → String → Option Int
  | [], _ => none
  | p :: tl, k => if p.1 = k then some p.2 else pyDictGet tl k

/-- Modelled from the spec: the `SelectOperation` record of
`mongosql/support.py` (section 3 of the spec): `collection` set once at
creation, `fields` either the all-fields sentinel (`none`, from the `*`
spec) or an ordered name list, and the four modifier slots, all starting
absent.  The in-place mutation of the Python object is rendered as
functional record update. -/
structure SelectOperation where
  collection : String
  fields : Option (List String)
  query : Option Expr
  limit : Option Int
  skip : Option Int
  sort : Option (List (String × Int))

/-- Modelled from the spec: an aggregation projection stage
(`AggregateCmdProject`), wrapping the ordered named-expression list of one
`PROJECT` clause. -/
structure AggregateCmdProject where
  fields : List NamedExpression

/-- Modelled from the spec: the `AggregateOperation` record, a collection
name plus an append-only pipeline of projection stages, initially empty. -/
structure AggregateOperation where
  collection : String
  pipeline : List AggregateCmdProject

/-- Source `p_operation_select_base`: `operation_select : SELECT fields_spec FROM
SYMBOL` creates the operation with all modifier slots absent. -/
def p_operation_select_base (collection : String)
    (fields : Option (List String)) : SelectOperation :=
  ⟨collection, fields, none, none, none, none⟩

/-- Source `p_operation_select_condition`: `operation_select : operation_select
WHERE expression` sets `query` on the operation it received. -/
def p_operation_select_condition (op : SelectOperation) (e : Expr) :
    SelectOperation :=
  { op with query := some e }

/-- Source `p_operation_select_limit`: sets `limit`. -/
def p_operation_select_limit (op : SelectOperation) (n : Int) :
    SelectOperation :=
  { op with limit := some n }

/-- Source `p_operation_select_skip`: sets `skip`. -/
def p_operation_select_skip (op : SelectOperation) (n : Int) :
    SelectOperation :=
  { op with skip := some n }

/-- Source `p_operation_select_sort`: sets `sort` to `dict(p[3])` built from the
sort pair list. -/
def p_operation_select_sort (op : SelectOperation)
    (ps : List (String × Int)) : SelectOperation :=
  { op with sort := some (pyDict ps) }

/-- Source `p_operation_aggregate`: `operation_aggregate : AGGREGATE SYMBOL`
creates the operation with an empty pipeline. -/
def p_operation_aggregate (collection : String) : AggregateOperation :=
  ⟨collection, []⟩

/-- Source `p_operation_aggregate_project`: `operation_aggregate :
operation_aggregate PROJECT named_expression_list` appends one new
`AggregateCmdProject` stage to the pipeline of the operation it
received. -/
def p_operation_aggregate_project (op : AggregateOperation)
    (nel : List NamedExpression) : AggregateOperation :=
  { op with pipeline := op.pipeline ++ [⟨nel⟩] }

/-- Source `p_map`: the shared semantic action of the two non-empty map
productions `map : LBRACE named_expression_list RBRACE` and `map : LBRACE
named_expression_list COMMA RBRACE`: the entries are the named expressions
in source order. -/
def p_map (nel : List NamedExpression) : Expr :=
  .mapLit (nel.map fun i => (i.name, i.expression))

/-- Source `p_sort_direction_default`: an omitted sort direction. -/
def p_sort_direction_default : Int := 1

/-- Source `p_sort_direction_asc`: `ASC`. -/
def p_sort_direction_asc : Int := 1

/-- Source `p_sort_direction_desc`: `DESC`. -/
def p_sort_direction_desc : Int := -1

/-- Source `p_sort_spec_item`: `sort_spec_item : SYMBOL sort_direction`, pairing
the symbol with the direction; the empty `sort_direction` alternative fires
exactly when neither `ASC` nor `DESC` follows the symbol. -/
def parseSortItem : List Tok → Option ((String × Int) × List Tok)
  | Tok.tSym s :: Tok.tAsc :: r => some ((s, p_sort_direction_asc), r)
  | Tok.tSym s :: Tok.tDesc :: r => some ((s, p_sort_direction_desc), r)
  | Tok.tSym s :: r => some ((s, p_sort_direction_default), r)
  | _ => none

/-- The action table for the thirteen binary-operator productions
(`p_expression_operation`, `p_expression_comparison`,
`p_expression_logical_and`, `p_expression_logical_or`): which AST node a
given operator token builds, `none` for tokens that are not binary
operators. -/
def binTok? : Tok → Option (Expr → Expr → Expr)
  | Tok.tPlus => some fun a b => .operation a .add b
  | Tok.tMinus => some fun a b => .operation a .sub b
  | Tok.tStar => some fun a b => .operation a .mul b
  | Tok.tSlash => some fun a b => .operation a .div b
  | Tok.tPercent => some fun a b => .operation a .mod b
  | Tok.tLt => some fun a b => .comparison a .lt b
  | Tok.tLte => some fun a b => .comparison a .lte b
  | Tok.tGt => some fun a b => .comparison a .gt b
  | Tok.tGte => some fun a b => .comparison a .gte b
  | Tok.tDblEqual => some fun a b => .comparison a .dbleq b
  | Tok.tNe => some fun a b => .comparison a .ne b
  | Tok.tAnd => some fun a b => .logicalAnd a b
  | Tok.tOr => some fun a b => .logicalOr a b
  | _ => none

mutual

/-- The `expression` nonterminal under PLY's default shift preference.
`p_expression_not` first (`NOT` consumes the whole following expression:
with a reducible `NOT expression` on the stack and an operator lookahead
the parser shifts); otherwise a primary expression followed, if the
lookahead is one of the thirteen operator tokens, by a shift into the rest
of the expression — which is precisely right grouping of every operator
chain.  Note that the semantic action of `p_expression_not` is
`LogicalNot(p[1])`: it wraps the value of the NOT terminal itself — the
raw lexeme, a bare Python string, which this embedding renders as
`Expr.strLit` exactly as it renders every other bare string sitting in an
expression slot — while the parsed operand `p[2]` is consumed from the
input but its value is discarded.  Each recursive call consumes one unit
of fuel, so the recursion is structural; callers supply ample fuel. -/
def parseExpr : Nat → List Tok → Option (Expr × List Tok)
  | 0, _ => none
  | fuel+1, Tok.tNot v :: rest =>
      (parseExpr fuel rest).map fun er => (.logicalNot (.strLit v), er.2)
  | fuel+1, ts =>
      (parsePrimary fuel ts).bind fun ar =>
        match ar.2 with
        | op :: r2 =>
          match binTok? op with
          | some mk => (parseExpr fuel r2).map fun br => (mk ar.1 br.1, br.2)
          | none => some ar
        | [] => some ar

/-- Primary expressions: `p_expression_in_parens`, `p_expression_base_type`
(INTEGER, string, TRUE, FALSE, NULL, map), `p_expression_symbol`, and
`p_expression_call` (`SYMBOL LPAREN [expression_list] RPAREN`; a bare
symbol only when no `LPAREN` follows).  The map branches render
`p_map_empty`, `p_map` (with and without the tolerated trailing comma). -/
def parsePrimary : Nat → List Tok → Option (Expr × List Tok)
  | 0, _ => none
  | _+1, Tok.tInt n :: r => some (.intLit n, r)
  | _+1, Tok.tStr s :: r => (p_string s).map fun v => (.strLit v, r)
  | _+1, Tok.tTrue :: r => some (.boolLit true, r)
  | _+1, Tok.tFalse :: r => some (.boolLit false, r)
  | _+1, Tok.tNull :: r => some (.nullLit, r)
  | _+1, Tok.tSym s :: Tok.tLParen :: Tok.tRParen :: r =>
      some (.functionCall s [], r)
  | fuel+1, Tok.tSym s :: Tok.tLParen :: r =>
      (parseExpr fuel r).bind fun er =>
        (parseExprListCont fuel [er.1] er.2).bind fun ar =>
          match ar.2 with
          | Tok.tRParen :: r3 => some (.functionCall s ar.1, r3)
          | _ => none
  | _+1, Tok.tSym s :: r => some (.symbol s, r)
  | fuel+1, Tok.tLParen :: r =>
      (parseExpr fuel r).bind fun er =>
        match er.2 with
        | Tok.tRParen :: r2 => some (er.1, r2)
        | _ => none
  | fuel+1, Tok.tLBrace :: r =>
      if r.head? = some Tok.tRBrace then some (.mapLit [], r.tail)
      else
        (parseNamedExprList fuel r).bind fun nr =>
          match nr.2 with
          | Tok.tRBrace :: r2 => some (p_map nr.1, r2)
          | Tok.tComma :: Tok.tRBrace :: r2 => some (p_map nr.1, r2)
          | _ => none
  | _+1, _ => none

/-- The left-recursive `expression_list : expression_list COMMA expression`
loop (`p_expression_list`), already holding the expressions accumulated so
far in source order. -/
def parseExprListCont :
    Nat → List Expr → List Tok → Option (List Expr × List Tok)
  | 0, _, _ => none
  | fuel+1, acc, Tok.tComma :: rest =>
      (parseExpr fuel rest).bind fun er =>
        parseExprListCont fuel (acc ++ [er.1]) er.2
  | _+1, acc, ts => some (acc, ts)

/-- Source `named_expression`: by `p_named_expression`, `SYMBOL EQUAL expression`
(the parser shifts `EQUAL` after a symbol, since `EQUAL` can follow no
reduced expression); otherwise by `p_named_expression_as`,
`expression AS SYMBOL`. -/
def parseNamedExpr : Nat → List Tok → Option (NamedExpression × List Tok)
  | 0, _ => none
  | fuel+1, Tok.tSym s :: Tok.tEqual :: rest =>
      (parseExpr fuel rest).map fun er => (⟨s, er.1⟩, er.2)
  | fuel+1, ts =>
      (parseExpr fuel ts).bind fun er =>
        match er.2 with
        | Tok.tAs :: Tok.tSym n :: r2 => some (⟨n, er.1⟩, r2)
        | _ => none

/-- Source `named_expression_list`: one item (`p_named_expression_list_one`) then
the left-recursive comma loop. -/
def parseNamedExprList :
    Nat → List Tok → Option (List NamedExpression × List Tok)
  | 0, _ => none
  | fuel+1, ts =>
      (parseNamedExpr fuel ts).bind fun nr =>
        parseNELCont fuel [nr.1] nr.2

/-- The `named_expression_list : named_expression_list COMMA
named_expression` loop (`p_named_expression_list`).  A comma directly
followed by `RBRACE` is not consumed: it belongs to the trailing-comma
alternative of the `map` production (no named expression can start with
`RBRACE`, so the parser shifts towards that rule). -/
def parseNELCont :
    Nat → List NamedExpression → List Tok → Option (List NamedExpression × List Tok)
  | 0, _, _ => none
  | _+1, acc, Tok.tComma :: Tok.tRBrace :: r =>
      some (acc, Tok.tComma :: Tok.tRBrace :: r)
  | fuel+1, acc, Tok.tComma :: rest =>
      (parseNamedExpr fuel rest).bind fun nr =>
        parseNELCont fuel (acc ++ [nr.1]) nr.2
  | _+1, acc, ts => some (acc, ts)

end

/-- Source `symbol_list`: the left-recursive comma loop of `p_symbol_list`,
appending one symbol per comma in encounter order. -/
def parseSymbolListCont : List String → List Tok → List String × List Tok
  | acc, Tok.tComma :: Tok.tSym s :: r => parseSymbolListCont (acc ++ [s]) r
  | acc, ts => (acc, ts)

/-- Source `fields_spec`: `STAR` is the all-fields sentinel
(`p_fields_spec_star` sets `None`); otherwise a `symbol_list`
(`p_fields_spec_names`). -/
def parseFieldsSpec : List Tok → Option (Option (List String) × List Tok)
  | Tok.tStar :: r => some (none, r)
  | Tok.tSym s :: r =>
      let lr := parseSymbolListCont [s] r
      some (some lr.1, lr.2)
  | _ => none

/-- Source `sort_spec`: one `sort_spec_item` (`p_sort_spec_one`) then the
left-recursive comma loop of `p_sort_spec_list`. -/
def parseSortCont :
    Nat → List (String × Int) → List Tok → Option (List (String × Int) × List Tok)
  | 0, _, _ => none
  | fuel+1, acc, Tok.tComma :: rest =>
      (parseSortItem rest).bind fun ir => parseSortCont fuel (acc ++ [ir.1]) ir.2
  | _+1, acc, ts => some (acc, ts)

/-- Entry point for the `sort_spec` nonterminal. -/
def parseSortSpec :
    Nat → List Tok → Option (List (String × Int) × List Tok)
  | 0, _ => none
  | fuel+1, ts =>
      (parseSortItem ts).bind fun ir => parseSortCont fuel [ir.1] ir.2

/-- The left-recursive modifier productions of `operation_select`: each
clause recognised extends the same in-progress operation through the
corresponding semantic action (`p_operation_select_condition`, `_limit`,
`_skip`, `_sort`), so a later clause of the same kind overwrites the value
set by an earlier one. -/
def parseSelectMods :
    Nat → SelectOperation → List Tok → Option (SelectOperation × List Tok)
  | 0, _, _ => none
  | fuel+1, op, Tok.tWhere :: rest =>
      (parseExpr fuel rest).bind fun er =>
        parseSelectMods fuel (p_operation_select_condition op er.1) er.2
  | fuel+1, op, Tok.tLimit :: Tok.tInt n :: r =>
      parseSelectMods fuel (p_operation_select_limit op n) r
  | fuel+1, op, Tok.tSkip :: Tok.tInt n :: r =>
      parseSelectMods fuel (p_operation_select_skip op n) r
  | fuel+1, op, Tok.tSort :: rest =>
      (parseSortSpec fuel rest).bind fun sr =>
        parseSelectMods fuel (p_operation_select_sort op sr.1) sr.2
  | _+1, op, ts => some (op, ts)

/-- Source `operation_select`: the base production `SELECT fields_spec FROM
SYMBOL` (`p_operation_select_base`) followed by the modifier loop. -/
def parseSelectOp (fuel : Nat) : List Tok → Option (SelectOperation × List Tok)
  | Tok.tSelect :: rest =>
      (parseFieldsSpec rest).bind fun fr =>
        match fr.2 with
        | Tok.tFrom :: Tok.tSym c :: r2 =>
            parseSelectMods fuel (p_operation_select_base c fr.1) r2
        | _ => none
  | _ => none

/-- The left-recursive `PROJECT` productions of `operation_aggregate`: each
clause appends a fresh stage via `p_operation_aggregate_project`. -/
def parseAggMods :
    Nat → AggregateOperation → List Tok → Option (AggregateOperation × List Tok)
  | 0, _, _ => none
  | fuel+1, op, Tok.tProject :: rest =>
      (parseNamedExprList fuel rest).bind fun nr =>
        parseAggMods fuel (p_operation_aggregate_project op nr.1) nr.2
  | _+1, op, ts => some (op, ts)

/-- Source `operation_aggregate`: `AGGREGATE SYMBOL` (`p_operation_aggregate`)
followed by the `PROJECT` loop. -/
def parseAggOp (fuel : Nat) : List Tok → Option (AggregateOperation × List Tok)
  | Tok.tAggregate :: Tok.tSym c :: rest =>
      parseAggMods fuel (p_operation_aggregate c) rest
  | _ => none

/-- The root of a successful parse: `statement : expression | operation`
with `operation : operation_select | operation_aggregate`. -/
inductive Statement
  | expr (e : Expr)
  | selectOp (s : SelectOperation)
  | aggregateOp (a : AggregateOperation)

/-- Source `p_statement`: one whole token stream to one AST root.  The keyword in
first position decides between the operation forms (no expression can start
with `SELECT` or `AGGREGATE`); the parse fails unless the chosen production
consumes every token.  The fuel bound is generous: every layer of the
expression grammar consumes at most five units per input token. -/
def parseStatement (ts : List Tok) : Option Statement :=
  let fuel := 5 * ts.length + 10
  match ts with
  | Tok.tSelect :: _ =>
      (parseSelectOp fuel ts).bind fun sr =>
        if sr.2 = [] then some (.selectOp sr.1) else none
  | Tok.tAggregate :: _ =>
      (parseAggOp fuel ts).bind fun ar =>
        if ar.2 = [] then some (.aggregateOp ar.1) else none
  | _ =>
      (parseExpr fuel ts).bind fun er =>
        if er.2 = [] then some (.expr er.1) else none

/-- The thirteen binary-operator terminals of the expression grammar,
enumerated for quantified statements about operator chains. -/
inductive BinOpTok
  | plus
  | minus
  | star
  | slash
  | percent
  | blt
  | blte
  | bgt
  | bgte
  | bdbleq
  | bne
  | bandT
  | borT
  deriving DecidableEq

/-- The terminal token of a binary operator. -/
def BinOpTok.tok : BinOpTok → Tok
  | .plus => .tPlus
  | .minus => .tMinus
  | .star => .tStar
  | .slash => .tSlash
  | .percent => .tPercent
  | .blt => .tLt
  | .blte => .tLte
  | .bgt => .tGt
  | .bgte => .tGte
  | .bdbleq => .tDblEqual
  | .bne => .tNe
  | .bandT => .tAnd
  | .borT => .tOr

/-- The AST node the corresponding grammar production builds
(`p_expression_operation`, `p_expression_comparison`,
`p_expression_logical_and`, `p_expression_logical_or`). -/
def BinOpTok.node : BinOpTok → Expr → Expr → Expr
  | .plus, a, b => .operation a .add b
  | .minus, a, b => .operation a .sub b
  | .star, a, b => .operation a .mul b
  | .slash, a, b => .operation a .div b
  | .percent, a, b => .operation a .mod b
  | .blt, a, b => .comparison a .lt b
  | .blte, a, b => .comparison a .lte b
  | .bgt, a, b => .comparison a .gt b
  | .bgte, a, b => .comparison a .gte b
  | .bdbleq, a, b => .comparison a .dbleq b
  | .bne, a, b => .comparison a .ne b
  | .bandT, a, b => .logicalAnd a b
  | .borT, a, b => .logicalOr a b

/-! Auxiliary facts about the parser and the dictionary model, shared by
the claim theorems below. -/

theorem parsePrimary_nil (f : Nat) : parsePrimary f [] = none := by
  cases f <;> rfl

theorem parseExpr_nil (f : Nat) : parseExpr f [] = none := by
  cases f with
  | zero => rfl
  | succ f => simp [parseExpr, parsePrimary_nil]

theorem parsePrimary_rbrace (f : Nat) (r : List Tok) :
    parsePrimary f (Tok.tRBrace :: r) = none := by
  cases f <;> rfl

theorem parseExpr_rbrace (f : Nat) (r : List Tok) :
    parseExpr f (Tok.tRBrace :: r) = none := by
  cases f with
  | zero => rfl
  | succ f => simp [parseExpr, parsePrimary_rbrace]

theorem parseNamedExpr_nil (f : Nat) : parseNamedExpr f [] = none := by
  cases f with
  | zero => rfl
  | succ f => simp [parseNamedExpr, parseExpr_nil]

theorem parseNamedExpr_rbrace (f : Nat) (r : List Tok) :
    parseNamedExpr f (Tok.tRBrace :: r) = none := by
  cases f with
  | zero => rfl
  | succ f => simp [parseNamedExpr, parseExpr_rbrace]

theorem parseNamedExprList_nil (f : Nat) : parseNamedExprList f [] = none := by
  cases f with
  | zero => rfl
  | succ f => simp [parseNamedExprList, parseNamedExpr_nil]

theorem parseNamedExprList_rbrace (f : Nat) (r : List Tok) :
    parseNamedExprList f (Tok.tRBrace :: r) = none := by
  cases f with
  | zero => rfl
  | succ f => simp [parseNamedExprList, parseNamedExpr_rbrace]

/-- Inserting a key into the dictionary model changes the lookup of that
key to the new value and leaves every other lookup unchanged. -/
theorem pyDictGet_insert (q : String) (v : Int) :
    ∀ (d : List (String × Int)) (k : String),
      pyDictGet (pyDictInsert d q v) k =
        if k = q then some v else pyDictGet d k
  | [], k => by
      by_cases h : k = q
      · subst h
        simp [pyDictInsert, pyDictGet]
      · have h' : q ≠ k := fun hq => h hq.symm
        simp [pyDictInsert, pyDictGet, h, h']
  | a :: tl, k => by
      by_cases h1 : a.1 = q
      · by_cases h2 : k = q
        · subst h2
          simp [pyDictInsert, pyDictGet, h1]
        · have h2' : q ≠ k := fun hq => h2 hq.symm
          have h3 : a.1 ≠ k := fun hk => h2 (hk.symm.trans h1)
          simp [pyDictInsert, pyDictGet, h1, h2, h2', h3]
      · by_cases h3 : a.1 = k
        · have h2 : ¬ k = q := fun hk => h1 (h3.trans hk)
          simp [pyDictInsert, pyDictGet, h1, h2, h3]
        · simp [pyDictInsert, pyDictGet, h1, h3,
            pyDictGet_insert q v tl k]

/-- Building a dictionary from one more pair is one insertion. -/
theorem pyDict_append (ps : List (String × Int)) (a : String × Int) :
    pyDict (ps ++ [a]) = pyDictInsert (pyDict ps) a.1 a.2 := by
  simp [pyDict, List.foldl_append]

/-- Looking a key up in `pyDict ps` returns the value of the key's last
occurrence in `ps` (the first occurrence in the reversed list). -/
theorem pyDict_last_wins (ps : List (String × Int)) (k : String) :
    pyDictGet (pyDict ps) k = pyDictGet ps.reverse k := by
  induction ps using List.reverseRecOn with
  | nil => rfl
  | append_singleton l a ih =>
      rw [pyDict_append, pyDictGet_insert, List.reverse_append]
      by_cases h : k = a.1
      · simp [pyDictGet, h]
      · have h' : a.1 ≠ k := fun ha => h ha.symm
        simp [pyDictGet, h, h', ih]

/-! The claim theorems. -/

/-- Claim C1: parsing the expression `1 + 2 * 3` yields
`BinaryOp(1, +, BinaryOp(2, *, 3))` — the multiplicative operator groups
tighter than the additive one in this input — and never the left-grouped
`BinaryOp(BinaryOp(1, +, 2), *, 3)`. -/
theorem c1_one_plus_two_times_three :
    parseStatement [Tok.tInt 1, Tok.tPlus, Tok.tInt 2, Tok.tStar, Tok.tInt 3] =
      some (.expr (.operation (.intLit 1) .add
        (.operation (.intLit 2) .mul (.intLit 3)))) ∧
    parseStatement [Tok.tInt 1, Tok.tPlus, Tok.tInt 2, Tok.tStar, Tok.tInt 3] ≠
      some (.expr (.operation (.operation (.intLit 1) .add (.intLit 2)) .mul
        (.intLit 3))) := by
  have h0 : parseStatement [Tok.tInt 1, Tok.tPlus, Tok.tInt 2, Tok.tStar,
      Tok.tInt 3] =
      some (Statement.expr (.operation (.intLit 1) .add
        (.operation (.intLit 2) .mul (.intLit 3)))) := rfl
  exact ⟨h0, fun h => absurd (h0.symm.trans h) (by simp)⟩

/-- Claim C2 counterexample: the claim says every binary operator is
left-associative, so `1 + 2 + 3` would have to parse as
`BinaryOp(BinaryOp(1, +, 2), +, 3)`; the parser instead produces the
right-grouped `BinaryOp(1, +, BinaryOp(2, +, 3))`, because the grammar
declares no precedence and PLY resolves the shift/reduce conflict by
shifting. -/
theorem c2_left_assoc_counterexample :
    parseStatement [Tok.tInt 1, Tok.tPlus, Tok.tInt 2, Tok.tPlus, Tok.tInt 3] =
      some (.expr (.operation (.intLit 1) .add
        (.operation (.intLit 2) .add (.intLit 3)))) ∧
    parseStatement [Tok.tInt 1, Tok.tPlus, Tok.tInt 2, Tok.tPlus, Tok.tInt 3] ≠
      some (.expr (.operation (.operation (.intLit 1) .add (.intLit 2)) .add
        (.intLit 3))) := by
  have h0 : parseStatement [Tok.tInt 1, Tok.tPlus, Tok.tInt 2, Tok.tPlus,
      Tok.tInt 3] =
      some (Statement.expr (.operation (.intLit 1) .add
        (.operation (.intLit 2) .add (.intLit 3)))) := rfl
  exact ⟨h0, fun h => absurd (h0.symm.trans h) (by simp)⟩

/-- Claim C2 as amended: for every pair of binary operators and integer
operands, `a op1 b op2 c` groups to the right — the produced node has `a`
as its left child and the node for `b op2 c` as its right child — since
the grammar has no precedence declarations and the parser always shifts
the second operator. -/
theorem c2_right_grouping (a b c : Int) (o1 o2 : BinOpTok) :
    parseStatement [Tok.tInt a, o1.tok, Tok.tInt b, o2.tok, Tok.tInt c] =
      some (.expr (o1.node (.intLit a) (o2.node (.intLit b) (.intLit c)))) := by
  cases o1 <;> cases o2 <;> rfl

/-- Claim C3 counterexample: the claim says `NOT` binds tighter than `AND`,
so `NOT a AND b` would have to parse as `LogicalAnd(LogicalNot(a), b)`.
It does not, for two reasons: with no precedence declarations the parser
shifts `AND` before reducing `NOT expression`, so the operand of `NOT`
spans the whole `a AND b`; and the action of `p_expression_not` is
`LogicalNot(p[1])`, wrapping the NOT token's own value (here the lexeme
`NOT`) and discarding the parsed operand.  The input therefore parses to
`LogicalNot` of the bare string `NOT`. -/
theorem c3_not_precedence_counterexample :
    parseStatement [Tok.tNot ['N', 'O', 'T'], Tok.tSym "a", Tok.tAnd,
        Tok.tSym "b"] =
      some (.expr (.logicalNot (.strLit ['N', 'O', 'T']))) ∧
    parseStatement [Tok.tNot ['N', 'O', 'T'], Tok.tSym "a", Tok.tAnd,
        Tok.tSym "b"] ≠
      some (.expr (.logicalAnd (.logicalNot (.symbol "a"))
        (.symbol "b"))) := by
  have h0 : parseStatement [Tok.tNot ['N', 'O', 'T'], Tok.tSym "a", Tok.tAnd,
      Tok.tSym "b"] =
      some (Statement.expr (.logicalNot (.strLit ['N', 'O', 'T']))) := rfl
  exact ⟨h0, fun h => absurd (h0.symm.trans h) (by simp)⟩

/-- Claim C3 as amended: `NOT` consumes the widest possible operand,
extending across `AND` as well as the comparisons (both four-token inputs
below are consumed completely, so `NOT` binds looser than `AND`, `OR` and
the comparisons, not tighter than `AND`); but the node built is
`LogicalNot` of the NOT token's own value `p[1]` — whatever lexeme `v` the
lexer supplied — while the parsed operand `p[2]` is discarded, so
`NOT a AND b` and `NOT a < b` parse to the same `LogicalNot(v)`, never to
`LogicalAnd(LogicalNot(a), b)` nor to `LogicalNot(Comparison(a, <, b))`. -/
theorem c3_not_wraps_token_value (v : List Char) (a b : String) :
    parseStatement [Tok.tNot v, Tok.tSym a, Tok.tAnd, Tok.tSym b] =
      some (.expr (.logicalNot (.strLit v))) ∧
    parseStatement [Tok.tNot v, Tok.tSym a, Tok.tLt, Tok.tSym b] =
      some (.expr (.logicalNot (.strLit v))) :=
  ⟨rfl, rfl⟩

/-- Claim C4: repeated modifier clauses of the same kind on a SELECT
resolve last-write-wins: `SELECT * FROM c LIMIT n1 LIMIT n2` keeps
`limit = n2`, and repeated `WHERE`, `SKIP` and `SORT` clauses likewise keep
only their last occurrence. -/
theorem c4_last_write_wins (c a b s1 s2 : String) (n1 n2 k1 k2 : Int) :
    parseStatement [Tok.tSelect, Tok.tStar, Tok.tFrom, Tok.tSym c,
        Tok.tLimit, Tok.tInt n1, Tok.tLimit, Tok.tInt n2] =
      some (.selectOp ⟨c, none, none, some n2, none, none⟩) ∧
    parseStatement [Tok.tSelect, Tok.tStar, Tok.tFrom, Tok.tSym c,
        Tok.tWhere, Tok.tSym a, Tok.tWhere, Tok.tSym b] =
      some (.selectOp ⟨c, none, some (.symbol b), none, none, none⟩) ∧
    parseStatement [Tok.tSelect, Tok.tStar, Tok.tFrom, Tok.tSym c,
        Tok.tSkip, Tok.tInt k1, Tok.tSkip, Tok.tInt k2] =
      some (.selectOp ⟨c, none, none, none, some k2, none⟩) ∧
    parseStatement [Tok.tSelect, Tok.tStar, Tok.tFrom, Tok.tSym c,
        Tok.tSort, Tok.tSym s1, Tok.tSort, Tok.tSym s2] =
      some (.selectOp ⟨c, none, none, none, none, some [(s2, 1)]⟩) :=
  ⟨rfl, rfl, rfl, rfl⟩

/-- Claim C5: a sort item with omitted direction maps to `+1`, `ASC` maps
to `+1`, `DESC` maps to `-1`; the sort field stores the dictionary built
from the ordered pair list, in which the last occurrence of a repeated
name wins (looking a name up in `pyDict ps` equals looking it up in the
reversed pair list, i.e. finding its last occurrence). -/
theorem c5_sort_directions_and_last_wins :
    (∀ (s : String) (rest : List Tok),
        parseSortItem (Tok.tSym s :: Tok.tAsc :: rest) = some ((s, 1), rest)) ∧
    (∀ (s : String) (rest : List Tok),
        parseSortItem (Tok.tSym s :: Tok.tDesc :: rest) =
          some ((s, -1), rest)) ∧
    (∀ s : String, parseSortItem [Tok.tSym s] = some ((s, 1), [])) ∧
    (∀ (s : String) (rest : List Tok),
        parseSortItem (Tok.tSym s :: Tok.tComma :: rest) =
          some ((s, 1), Tok.tComma :: rest)) ∧
    (∀ (op : SelectOperation) (ps : List (String × Int)),
        (p_operation_select_sort op ps).sort = some (pyDict ps)) ∧
    (∀ (ps : List (String × Int)) (k : String),
        pyDictGet (pyDict ps) k = pyDictGet ps.reverse k) ∧
    parseStatement [Tok.tSelect, Tok.tStar, Tok.tFrom, Tok.tSym "c",
        Tok.tSort, Tok.tSym "a", Tok.tAsc, Tok.tComma, Tok.tSym "a",
        Tok.tDesc] =
      some (.selectOp ⟨"c", none, none, none, none, some [("a", -1)]⟩) :=
  ⟨fun _ _ => rfl, fun _ _ => rfl, fun _ => rfl, fun _ _ => rfl,
   fun _ _ => rfl, pyDict_last_wins, rfl⟩

/-- Claim C6: every PROJECT clause appends exactly one new projection
stage: `AGGREGATE coll PROJECT a = x PROJECT b = y` produces the pipeline
`[ProjectStage([(a, x)]), ProjectStage([(b, y)])]` in source order, and in
general `p_operation_aggregate_project` appends one stage and touches
nothing else. -/
theorem c6_project_appends_stage (coll a x b y : String) :
    parseStatement [Tok.tAggregate, Tok.tSym coll, Tok.tProject, Tok.tSym a,
        Tok.tEqual, Tok.tSym x, Tok.tProject, Tok.tSym b, Tok.tEqual,
        Tok.tSym y] =
      some (.aggregateOp ⟨coll, [⟨[⟨a, .symbol x⟩]⟩, ⟨[⟨b, .symbol y⟩]⟩]⟩) ∧
    (∀ (op : AggregateOperation) (nel : List NamedExpression),
        (p_operation_aggregate_project op nel).pipeline =
            op.pipeline ++ [⟨nel⟩] ∧
        (p_operation_aggregate_project op nel).collection = op.collection) :=
  ⟨rfl, fun _ _ => ⟨rfl, rfl⟩⟩

/-- Claim C7: whenever the named-expression list of a map literal reduces
to `L` leaving the closing brace (with or without a trailing comma before
it), the map parses to the same `MapLiteral` either way, and its entries
are the `(name, expression)` pairs of `L` in source order. -/
theorem c7_trailing_comma_map (fuel : Nat) (r1 r2 rest : List Tok)
    (L : List NamedExpression)
    (h1 : parseNamedExprList fuel r1 = some (L, Tok.tRBrace :: rest))
    (h2 : parseNamedExprList fuel r2 =
        some (L, Tok.tComma :: Tok.tRBrace :: rest)) :
    parsePrimary (fuel + 1) (Tok.tLBrace :: r1) =
        some (.mapLit (L.map fun i => (i.name, i.expression)), rest) ∧
    parsePrimary (fuel + 1) (Tok.tLBrace :: r2) =
        some (.mapLit (L.map fun i => (i.name, i.expression)), rest) := by
  constructor
  · rcases r1 with _ | ⟨t, r1'⟩
    · rw [parseNamedExprList_nil] at h1
      exact Option.noConfusion h1
    · by_cases ht : t = Tok.tRBrace
      · subst ht
        rw [parseNamedExprList_rbrace] at h1
        exact Option.noConfusion h1
      · simp only [parsePrimary]
        rw [if_neg (by simp [ht]), h1]
        simp [p_map]
  · rcases r2 with _ | ⟨t, r2'⟩
    · rw [parseNamedExprList_nil] at h2
      exact Option.noConfusion h2
    · by_cases ht : t = Tok.tRBrace
      · subst ht
        rw [parseNamedExprList_rbrace] at h2
        exact Option.noConfusion h2
      · simp only [parsePrimary]
        rw [if_neg (by simp [ht]), h2]
        simp [p_map]

/-- Witness for C7 at the map body `a = 1`. -/
theorem c7_trailing_comma_map_witness :
    parsePrimary 10 [Tok.tLBrace, Tok.tSym "a", Tok.tEqual, Tok.tInt 1,
        Tok.tRBrace] = some (.mapLit [("a", .intLit 1)], []) ∧
    parsePrimary 10 [Tok.tLBrace, Tok.tSym "a", Tok.tEqual, Tok.tInt 1,
        Tok.tComma, Tok.tRBrace] = some (.mapLit [("a", .intLit 1)], []) :=
  c7_trailing_comma_map 9
    [Tok.tSym "a", Tok.tEqual, Tok.tInt 1, Tok.tRBrace]
    [Tok.tSym "a", Tok.tEqual, Tok.tInt 1, Tok.tComma, Tok.tRBrace]
    [] [⟨"a", .intLit 1⟩] rfl rfl

/-- Claim C8: the two named-expression forms `e AS n` and `n = e` produce
equal `NamedExpression` values — the name `n` paired with the expression
`e` — whichever keyword form is used. -/
theorem c8_named_expression_forms (fuel : Nat) (ts1 ts2 : List Tok)
    (e : Expr) (n : String) (r1 r2 : List Tok)
    (h1 : parseExpr fuel ts1 = some (e, Tok.tAs :: Tok.tSym n :: r1))
    (h2 : parseExpr fuel ts2 = some (e, r2)) :
    parseNamedExpr (fuel + 1) ts1 = some (⟨n, e⟩, r1) ∧
    parseNamedExpr (fuel + 1) (Tok.tSym n :: Tok.tEqual :: ts2) =
        some (⟨n, e⟩, r2) := by
  constructor
  · rcases ts1 with _ | ⟨t, ts1'⟩
    · rw [parseExpr_nil] at h1
      exact Option.noConfusion h1
    · cases t
      case tSym s =>
        rcases ts1' with _ | ⟨t2, ts1''⟩
        · simp [parseNamedExpr, h1]
        · cases t2
          case tEqual =>
            exfalso
            rcases fuel with _ | f
            · rw [show parseExpr 0 (Tok.tSym s :: Tok.tEqual :: ts1'') = none
                from rfl] at h1
              exact Option.noConfusion h1
            · rcases f with _ | f2
              · simp [parseExpr, parsePrimary] at h1
              · simp [parseExpr, parsePrimary, binTok?] at h1
          all_goals simp [parseNamedExpr, h1]
      all_goals simp [parseNamedExpr, h1]
  · simp [parseNamedExpr, h2]

/-- Witness for C8 at the expression `5` and the name `n`. -/
theorem c8_named_expression_forms_witness :
    parseNamedExpr 3 [Tok.tInt 5, Tok.tAs, Tok.tSym "n"] =
        some (⟨"n", .intLit 5⟩, []) ∧
    parseNamedExpr 3 [Tok.tSym "n", Tok.tEqual, Tok.tInt 5] =
        some (⟨"n", .intLit 5⟩, []) :=
  c8_named_expression_forms 2 [Tok.tInt 5, Tok.tAs, Tok.tSym "n"]
    [Tok.tInt 5] (.intLit 5) "n" [] [] rfl rfl

/-- Claim C9: a string lexeme whose first and last characters differ fails
the parse (as does the spec's example `'abc"`); a lexeme delimited by one
matching quote character on each side yields exactly the interior, with no
escape interpretation. -/
theorem c9_string_literal_quotes :
    p_string ['\'', 'a', 'b', 'c', '"'] = none ∧
    (∀ (c1 c2 : Char) (mid : List Char), c1 ≠ c2 →
        p_string (c1 :: (mid ++ [c2])) = none) ∧
    (∀ (q : Char) (mid : List Char), q = '\'' ∨ q = '"' →
        p_string (q :: (mid ++ [q])) = some mid) := by
  refine ⟨rfl, fun c1 c2 mid h => ?_, fun q mid hq => ?_⟩
  · have hl : (c1 :: (mid ++ [c2])).getLast? = some c2 := by
      rw [← List.cons_append]
      exact List.getLast?_concat _
    simp only [p_string, List.head?_cons, hl]
    rw [if_neg]
    intro hc
    exact h hc.1
  · have hl : (q :: (mid ++ [q])).getLast? = some q := by
      rw [← List.cons_append]
      exact List.getLast?_concat _
    simp only [p_string, List.head?_cons, hl]
    rw [if_pos]
    · simp [List.dropLast_concat]
    · exact ⟨by trivial, hq⟩

/-- Witness for C9: `"x'` fails, `"x"` strips to `x`. -/
theorem c9_string_literal_quotes_witness :
    p_string ['"', 'x', '\''] = none ∧ p_string ['"', 'x', '"'] = some ['x'] :=
  ⟨c9_string_literal_quotes.2.1 '"' '\'' ['x'] (by decide),
   c9_string_literal_quotes.2.2 '"' ['x'] (Or.inr rfl)⟩

/-- Claim C10: each SELECT modifier reduction returns the operation it
received with only its own field changed — `WHERE` sets only `query`,
`LIMIT` only `limit`, `SKIP` only `skip`, `SORT` only `sort`; `collection`
and `fields` and every other modifier field come through unchanged. -/
theorem c10_select_modifier_frame (op : SelectOperation) (e : Expr)
    (n m : Int) (ps : List (String × Int)) :
    ((p_operation_select_condition op e).collection = op.collection ∧
      (p_operation_select_condition op e).fields = op.fields ∧
      (p_operation_select_condition op e).limit = op.limit ∧
      (p_operation_select_condition op e).skip = op.skip ∧
      (p_operation_select_condition op e).sort = op.sort ∧
      (p_operation_select_condition op e).query = some e) ∧
    ((p_operation_select_limit op n).collection = op.collection ∧
      (p_operation_select_limit op n).fields = op.fields ∧
      (p_operation_select_limit op n).query = op.query ∧
      (p_operation_select_limit op n).skip = op.skip ∧
      (p_operation_select_limit op n).sort = op.sort ∧
      (p_operation_select_limit op n).limit = some n) ∧
    ((p_operation_select_skip op m).collection = op.collection ∧
      (p_operation_select_skip op m).fields = op.fields ∧
      (p_operation_select_skip op m).query = op.query ∧
      (p_operation_select_skip op m).limit = op.limit ∧
      (p_operation_select_skip op m).sort = op.sort ∧
      (p_operation_select_skip op m).skip = some m) ∧
    ((p_operation_select_sort op ps).collection = op.collection ∧
      (p_operation_select_sort op ps).fields = op.fields ∧
      (p_operation_select_sort op ps).query = op.query ∧
      (p_operation_select_sort op ps).limit = op.limit ∧
      (p_operation_select_sort op ps).skip = op.skip ∧
      (p_operation_select_sort op ps).sort = some (pyDict ps)) :=
  ⟨⟨rfl, rfl, rfl, rfl, rfl, rfl⟩, ⟨rfl, rfl, rfl, rfl, rfl, rfl⟩,
   ⟨rfl, rfl, rfl, rfl, rfl, rfl⟩, ⟨rfl, rfl, rfl, rfl, rfl, rfl⟩⟩

end MongoSQL
